import Mathlib

/-!
Shallow embedding of the assessment/scoring/report engine of the `ccf-agent`
repository, translated from `src/security_auditor.py` (classes
`ComplianceStatus`, `Priority`, `ControlAssessment`, `Finding`, `AuditReport`,
`SecurityAuditor`) and `src/questionnaire.py`
(`QuestionnaireEngine.interpret_response`).

Modelling conventions:
* Python `float` scores are modelled as `ℚ`; every score the engine ever
  produces is ratio of the integer literals in the source, so rational
  arithmetic is exact where the source's float arithmetic is exact on the
  values the claims mention.
* Python `dict` (insertion-ordered, unique keys) is modelled as an
  association list `List (String × α)` with `dictGet`/`dictSet` implementing
  lookup and update-in-place-or-append, exactly the observable behaviour of
  `dict.__getitem__` / `dict.__setitem__` / iteration order.
* `raise ValueError(...)` is modelled with `Except String`.
* Mutable aliasing of the Python list object `self.findings` (which
  `generate_report` stores into the report unchanged, `findings=self.findings`)
  is modelled with an explicit heap of finding-list objects: `heap` holds the
  contents of each allocated list object and `findingsRef` is the index of the
  engine's registry object.  `AuditReport.findingsRef` records that the report
  holds a reference to the very same list object, while the report's
  `assessments` field is a fresh list (`list(self.assessments.values())` in
  the source) and is therefore modelled by value.
-/

namespace CCF

/-- Lookup in a Python dict modelled as an association list: first (unique)
matching key wins, mirroring `d[k]` / `k in d`. -/
def dictGet {α : Type} (k : String) : List (String × α) → Option α
  | [] => none
  | p :: ps => if p.1 = k then some p.2 else dictGet k ps

/-- Update of a Python dict modelled as an association list: `d[k] = v`
replaces the value at an existing key in place (keeping its position in
iteration order) and otherwise appends the new pair at the end. -/
def dictSet {α : Type} (k : String) (v : α) : List (String × α) → List (String × α)
  | [] => [(k, v)]
  | p :: ps => if p.1 = k then (k, v) :: ps else p :: dictSet k v ps

/-- `ComplianceStatus` enum from `security_auditor.py`.  The source member
`PARTIAL` is spelled `PARTIAL_` here (trailing underscore added; all other
member names are kept verbatim). -/
inductive ComplianceStatus : Type
  | COMPLIANT
  | PARTIAL_
  | NON_COMPLIANT
  | NOT_APPLICABLE
  | NOT_ASSESSED
deriving DecidableEq

/-- `Priority` enum from `security_auditor.py`. -/
inductive Priority : Type
  | CRITICAL
  | HIGH
  | MEDIUM
  | LOW
  | INFO
deriving DecidableEq

/-- A catalog entry.  The JSON control records carry further metadata
(description, guidance, framework mappings) that the engine never reads;
the engine accesses exactly `ccf_id`, `domain` and `name`
(`assess_control`, `get_control_by_id`), so only those fields are modelled. -/
structure Control : Type where
  ccf_id : String
  domain : String
  name : String
deriving DecidableEq

/-- `ControlAssessment` dataclass from `security_auditor.py`. -/
structure ControlAssessment : Type where
  ccf_id : String
  domain : String
  control_name : String
  status : ComplianceStatus
  evidence : String
  gaps : List String
  notes : String
  score : ℚ
deriving DecidableEq

/-- `Finding` dataclass from `security_auditor.py`. -/
structure Finding : Type where
  finding_id : String
  title : String
  description : String
  affected_controls : List String
  priority : Priority
  recommendation : String
  risk_impact : String
  remediation_effort : String
deriving DecidableEq

/-- State of one `SecurityAuditor` instance together with the heap of
finding-list objects (see the module comment): `controls` and `domains` are
the read-only catalog (`self.controls`, `self.domains`), `assessments` is
`self.assessments` (a dict keyed by control id), `findingsRef` is the list
object referenced by `self.findings`, whose current contents live in
`heap`. -/
structure SecurityAuditor : Type where
  controls : List Control
  domains : List (String × List String)
  assessments : List (String × ControlAssessment)
  heap : List (List Finding)
  findingsRef : Nat
deriving DecidableEq

/-- `SecurityAuditor.__init__`: empty assessment store, `self.findings = []`
allocates one fresh (empty) list object. -/
def initAuditor (controls : List Control) (domains : List (String × List String)) :
    SecurityAuditor :=
  { controls := controls
    domains := domains
    assessments := []
    heap := [[]]
    findingsRef := 0 }

/-- Contents of the engine's findings registry (`self.findings`). -/
def findingsOf (s : SecurityAuditor) : List Finding :=
  s.heap.getD s.findingsRef []

/-- `SecurityAuditor.get_control_by_id`: linear scan of `self.controls`,
first control whose `ccf_id` matches, else `None`. -/
def get_control_by_id (s : SecurityAuditor) (ccf_id : String) : Option Control :=
  s.controls.find? (fun c => c.ccf_id == ccf_id)

/-- The `score_map` dict built inside `SecurityAuditor.assess_control`;
`NOT_APPLICABLE` maps to Python `None` (modelled `none`). -/
def score_map : ComplianceStatus → Option ℚ
  | .COMPLIANT => some 100
  | .PARTIAL_ => some 50
  | .NON_COMPLIANT => some 0
  | .NOT_APPLICABLE => none
  | .NOT_ASSESSED => some 0

/-- `SecurityAuditor.assess_control`: fails (raises `ValueError`) when the
control id is not in the catalog; otherwise builds a `ControlAssessment`
whose `score` is `score_map[status] if score_map[status] is not None else
0.0` and stores it with `self.assessments[ccf_id] = assessment`, returning
the assessment.  The returned pair carries the assessment and the updated
engine state. -/
def assess_control (s : SecurityAuditor) (ccf_id : String)
    (status : ComplianceStatus) (evidence : String) (gaps : List String)
    (notes : String) : Except String (ControlAssessment × SecurityAuditor) :=
  match get_control_by_id s ccf_id with
  | none => .error ("Control " ++ ccf_id ++ " not found")
  | some control =>
    let assessment : ControlAssessment :=
      { ccf_id := ccf_id
        domain := control.domain
        control_name := control.name
        status := status
        evidence := evidence
        gaps := gaps
        notes := notes
        score := (score_map status).getD 0 }
    .ok (assessment, { s with assessments := dictSet ccf_id assessment s.assessments })

/-- `SecurityAuditor.add_finding`: `self.findings.append(finding)` — an
in-place append on the registry's list object. -/
def add_finding (s : SecurityAuditor) (f : Finding) : SecurityAuditor :=
  { s with heap := s.heap.set s.findingsRef (findingsOf s ++ [f]) }

/-- `SecurityAuditor.calculate_domain_score`: the assessments of the domain's
control ids that are present in the store and not `NOT_APPLICABLE`
(the comprehension `[self.assessments[cid] for cid in control_ids if cid in
self.assessments and self.assessments[cid].status != NOT_APPLICABLE]`). -/
def assessedForDomain (s : SecurityAuditor) (domain : String) :
    List ControlAssessment :=
  let control_ids := (dictGet domain s.domains).getD []
  control_ids.filterMap (fun cid =>
    match dictGet cid s.assessments with
    | some a => if a.status = ComplianceStatus.NOT_APPLICABLE then none else some a
    | none => none)

/-- `SecurityAuditor.calculate_domain_score`: average score of the assessed,
non-`NOT_APPLICABLE` controls of the domain; `0.0` when there are none. -/
def calculate_domain_score (s : SecurityAuditor) (domain : String) : ℚ :=
  let assessed_controls := assessedForDomain s domain
  if assessed_controls = [] then 0
  else (assessed_controls.map ControlAssessment.score).sum / assessed_controls.length

/-- `SecurityAuditor.calculate_overall_score`: average score over every
stored assessment whose status is not `NOT_APPLICABLE`; `0.0` when there are
none. -/
def calculate_overall_score (s : SecurityAuditor) : ℚ :=
  let assessed_controls :=
    (s.assessments.map Prod.snd).filter
      (fun a => decide (a.status ≠ ComplianceStatus.NOT_APPLICABLE))
  if assessed_controls = [] then 0
  else (assessed_controls.map ControlAssessment.score).sum / assessed_controls.length

/-- Python `str.strip()` on the character list of a string: drop whitespace
from both ends. -/
def pyStripL (l : List Char) : List Char :=
  ((l.dropWhile Char.isWhitespace).reverse.dropWhile Char.isWhitespace).reverse

/-- Python `str.lower()` on the character list of a string (the source only
ever lowercases ASCII option/response text). -/
def pyLowerL (l : List Char) : List Char :=
  l.map Char.toLower

/-- `needle` occurs as a contiguous run in `hay` at the start:
auxiliary for Python's substring operator `in`. -/
def isPrefixOfL : List Char → List Char → Bool
  | [], _ => true
  | _ :: _, [] => false
  | a :: as, b :: bs => a == b && isPrefixOfL as bs

/-- Python's substring test `needle in hay` on character lists. -/
def pyIn (needle : List Char) : List Char → Bool
  | [] => isPrefixOfL needle []
  | c :: hay => isPrefixOfL needle (c :: hay) || pyIn needle (hay)

/-- The loop body of the `for i, finding in enumerate(..., 1)` loops of
`SecurityAuditor._generate_recommendations_summary` for the CRITICAL, HIGH
and MEDIUM bands: each entry renders its 1-based number, its title and its
recommendation text. -/
def renderNumberedCHM (i : Nat) : List Finding → String
  | [] => ""
  | f :: fs =>
    toString i ++ ". " ++ f.title ++ "\n" ++ "   - " ++ f.recommendation ++ "\n\n" ++
      renderNumberedCHM (i + 1) fs

/-- The loop body of the LOW band of
`SecurityAuditor._generate_recommendations_summary`: each entry renders its
1-based number and its title only. -/
def renderNumberedLow (i : Nat) : List Finding → String
  | [] => ""
  | f :: fs =>
    toString i ++ ". " ++ f.title ++ "\n\n" ++ renderNumberedLow (i + 1) fs

/-- `SecurityAuditor._generate_recommendations_summary` (the leading
underscore of the source name is dropped): filters the findings registry by
priority into the four bands, appends each non-empty band with its fixed
header, and strips the result. -/
def generate_recommendations_summary (findings : List Finding) : String :=
  let critical := findings.filter (fun f => decide (f.priority = Priority.CRITICAL))
  let high := findings.filter (fun f => decide (f.priority = Priority.HIGH))
  let medium := findings.filter (fun f => decide (f.priority = Priority.MEDIUM))
  let low := findings.filter (fun f => decide (f.priority = Priority.LOW))
  let s := "**Prioritized Recommendations:**\n\n"
  let s := if critical = [] then s else
    s ++ "**CRITICAL PRIORITY (Immediate Action Required):**\n" ++ renderNumberedCHM 1 critical
  let s := if high = [] then s else
    s ++ "**HIGH PRIORITY (Address within 30 days):**\n" ++ renderNumberedCHM 1 high
  let s := if medium = [] then s else
    s ++ "**MEDIUM PRIORITY (Address within 90 days):**\n" ++ renderNumberedCHM 1 medium
  let s := if low = [] then s else
    s ++ "**LOW PRIORITY (Address within 6 months):**\n" ++ renderNumberedLow 1 low
  String.mk (pyStripL s.data)

/-- Insertion step of a stable ascending sort by score, modelling Python's
stable `sorted(domain_scores.items(), key=lambda x: x[1])` in
`SecurityAuditor._generate_executive_summary`: the inserted element came
earlier in the original order than everything in the accumulator built from
the tail, so on ties it is placed first. -/
def insertEntry (p : String × ℚ) : List (String × ℚ) → List (String × ℚ)
  | [] => [p]
  | q :: qs => if q.2 < p.2 then q :: insertEntry p qs else p :: q :: qs

/-- Stable ascending sort by score (second component); models
`sorted(domain_scores.items(), key=lambda x: x[1])`. -/
def sortByScore : List (String × ℚ) → List (String × ℚ)
  | [] => []
  | p :: ps => insertEntry p (sortByScore ps)

/-- Lines 246-247 of `security_auditor.py`
(`SecurityAuditor._generate_executive_summary`):
`sorted_domains = sorted(domain_scores.items(), key=lambda x: x[1])` and
`weakest_domains = [d[0] for d in sorted_domains[:3] if d[1] < 60]`. -/
def weakest_domains (domain_scores : List (String × ℚ)) : List String :=
  let sorted_domains := sortByScore domain_scores
  (((sorted_domains.take 3).filter (fun d => decide (d.2 < 60))).map Prod.fst)

/-- `AuditReport` dataclass, restricted to the fields the verified claims
are about.  `scope` and `assessment_date` (wall-clock timestamp) and the
executive-summary narrative string are omitted; the computation the claims
make about the executive summary (`weakest_domains`) is modelled above.
`findingsRef` models the source line `findings=self.findings`: the report
holds a reference to the registry's list object itself, not a copy. -/
structure AuditReport : Type where
  assessments : List ControlAssessment
  findingsRef : Nat
  overall_score : ℚ
  domain_scores : List (String × ℚ)
  recommendations_summary : String
deriving DecidableEq

/-- `SecurityAuditor.generate_report`: recomputes the scores from the current
store, copies the assessment values into a fresh list
(`list(self.assessments.values())`), stores a reference to the findings
registry (`findings=self.findings`), and renders the recommendations
summary from the registry's current contents. -/
def generate_report (s : SecurityAuditor) : AuditReport :=
  { assessments := s.assessments.map Prod.snd
    findingsRef := s.findingsRef
    overall_score := calculate_overall_score s
    domain_scores := s.domains.map (fun p => (p.1, calculate_domain_score s p.1))
    recommendations_summary := generate_recommendations_summary (findingsOf s) }

/-- The finding list of an already-produced report, read at a later moment:
the report's `findings` attribute is the list object `r.findingsRef`, whose
contents at that moment are what the heap of state `s` holds for it. -/
def reportFindings (r : AuditReport) (s : SecurityAuditor) : List Finding :=
  s.heap.getD r.findingsRef []

/-- `response.lower().strip()` — the normalisation applied to the response at
the start of `QuestionnaireEngine.interpret_response`. -/
def normalizeResponse (response : String) : List Char :=
  pyStripL (pyLowerL response.data)

/-- The first `for i, option in enumerate(options)` loop of
`QuestionnaireEngine.interpret_response`: index of the first option with
`response_lower in option.lower() or option.lower() in response_lower`. -/
def findOptionIdx (resp : List Char) : List String → Option Nat
  | [] => none
  | o :: os =>
    if pyIn resp (pyLowerL o.data) || pyIn (pyLowerL o.data) resp then some 0
    else (findOptionIdx resp os).map (· + 1)

/-- The keyword-fallback block of `QuestionnaireEngine.interpret_response`
(entered only when the substring scan left `option_index == -1`). -/
def fallbackIdx (resp : List Char) (numOptions : Nat) : Int :=
  if pyIn "yes".data resp || pyIn "comprehensive".data resp || pyIn "all".data resp then 0
  else if pyIn "partial".data resp || pyIn "basic".data resp || pyIn "some".data resp then
    min 1 ((numOptions : Int) - 1)
  else if pyIn "no".data resp || pyIn "never".data resp || pyIn "none".data resp then
    (numOptions : Int) - 1
  else -1

/-- `QuestionnaireEngine.interpret_response`.  The resolved `option_index`
is a Python `int` and may remain `-1`; it is modelled as `Int`.  The one
behavioural divergence of the model: when `len(options) == 1` and the index
is unresolved the source raises `ZeroDivisionError` while `ℚ` division by
zero yields `0`; no claim touches that input.  The `question` argument is
unused in the source as well. -/
def interpret_response (question response : String) (options : List String) :
    ComplianceStatus × ℚ :=
  let _ := question
  let response_lower := normalizeResponse response
  let option_index : Int :=
    match findOptionIdx response_lower options with
    | some i => (i : Int)
    | none => fallbackIdx response_lower options.length
  if option_index = 0 then (ComplianceStatus.COMPLIANT, 100)
  else if option_index = (options.length : Int) - 1 then (ComplianceStatus.NON_COMPLIANT, 0)
  else
    let score : ℚ := 100 - ((option_index : ℚ) / (((options.length : Int) : ℚ) - 1)) * 100
    if score > 60 then (ComplianceStatus.PARTIAL_, score)
    else (ComplianceStatus.NON_COMPLIANT, score)

/-- A mutating call on one `SecurityAuditor`: the two operations external
evidence producers perform against the engine (§2 of the source's docs). -/
inductive AuditOp : Type
  | assess (ccf_id : String) (status : ComplianceStatus) (evidence : String)
      (gaps : List String) (notes : String)
  | finding (f : Finding)

/-- Effect of one operation on the engine state; a failing `assess_control`
raises and therefore leaves the state unchanged. -/
def runOp (s : SecurityAuditor) : AuditOp → SecurityAuditor
  | .assess ccf_id status evidence gaps notes =>
    match assess_control s ccf_id status evidence gaps notes with
    | .ok (_, s') => s'
    | .error _ => s
  | .finding f => add_finding s f

/-- Effect of a sequence of operations, run left to right. -/
def runOps (s : SecurityAuditor) (ops : List AuditOp) : SecurityAuditor :=
  ops.foldl runOp s

/-! Helper lemmas about the dict model. -/

theorem dictGet_dictSet_self {α : Type} (k : String) (v : α) (l : List (String × α)) :
    dictGet k (dictSet k v l) = some v := by
  induction l with
  | nil => simp [dictGet, dictSet]
  | cons p ps ih =>
    by_cases h : p.1 = k
    · simp [dictGet, dictSet, h]
    · simp [dictGet, dictSet, h, ih]

theorem mem_dictSet {α : Type} {k : String} {v : α} {l : List (String × α)}
    {p : String × α} (hp : p ∈ dictSet k v l) : p = (k, v) ∨ p ∈ l := by
  induction l with
  | nil => simpa [dictSet] using hp
  | cons q qs ih =>
    by_cases h : q.1 = k
    · simp only [dictSet, if_pos h, List.mem_cons] at hp
      rcases hp with h1 | h1
      · exact Or.inl h1
      · exact Or.inr (List.mem_cons_of_mem _ h1)
    · simp only [dictSet, if_neg h, List.mem_cons] at hp
      rcases hp with h1 | h1
      · exact Or.inr (h1 ▸ List.mem_cons_self _ _)
      · rcases ih h1 with h2 | h2
        · exact Or.inl h2
        · exact Or.inr (List.mem_cons_of_mem _ h2)

theorem dictGet_eq_none {α : Type} {k : String} {l : List (String × α)}
    (h : k ∉ l.map Prod.fst) : dictGet k l = none := by
  induction l with
  | nil => rfl
  | cons p ps ih =>
    simp only [List.map_cons, List.mem_cons] at h
    push_neg at h
    have hne : ¬ p.1 = k := fun hh => h.1 hh.symm
    simp [dictGet, hne, ih h.2]

theorem keys_dictSet {α : Type} (k : String) (v : α) (l : List (String × α)) :
    (dictSet k v l).map Prod.fst =
      if k ∈ l.map Prod.fst then l.map Prod.fst else l.map Prod.fst ++ [k] := by
  induction l with
  | nil => simp [dictSet]
  | cons p ps ih =>
    by_cases h : p.1 = k
    · simp [dictSet, h]
    · have hne : ¬ k = p.1 := fun hh => h hh.symm
      by_cases h2 : k ∈ ps.map Prod.fst
      · simp [dictSet, h, ih, h2, hne]
      · simp [dictSet, h, ih, h2, hne]

theorem keys_nodup_dictSet {α : Type} {k : String} {v : α} {l : List (String × α)}
    (h : (l.map Prod.fst).Nodup) : ((dictSet k v l).map Prod.fst).Nodup := by
  rw [keys_dictSet]
  by_cases h2 : k ∈ l.map Prod.fst
  · simpa [h2] using h
  · simpa [h2] using List.Nodup.append h (List.nodup_singleton k) (by simpa using h2)

theorem filter_key_eq_nil {α : Type} {k : String} {l : List (String × α)}
    (h : k ∉ l.map Prod.fst) :
    l.filter (fun p => decide (p.1 = k)) = [] := by
  induction l with
  | nil => rfl
  | cons p ps ih =>
    simp only [List.map_cons, List.mem_cons] at h
    push_neg at h
    have hne : ¬ p.1 = k := fun hh => h.1 hh.symm
    simp [List.filter_cons, hne, ih h.2]

theorem filter_key_dictSet {α : Type} {k : String} (v : α) {l : List (String × α)}
    (h : (l.map Prod.fst).Nodup) :
    (dictSet k v l).filter (fun p => decide (p.1 = k)) = [(k, v)] := by
  induction l with
  | nil => simp [dictSet, List.filter_cons]
  | cons p ps ih =>
    simp only [List.map_cons, List.nodup_cons] at h
    by_cases h2 : p.1 = k
    · have : k ∉ ps.map Prod.fst := h2 ▸ h.1
      simp [dictSet, h2, List.filter_cons, filter_key_eq_nil this]
    · simp [dictSet, h2, List.filter_cons, ih h.2]

theorem dictGet_mem {α : Type} {k : String} {v : α} {l : List (String × α)}
    (h : dictGet k l = some v) : (k, v) ∈ l := by
  induction l with
  | nil => simp [dictGet] at h
  | cons p ps ih =>
    by_cases h2 : p.1 = k
    · simp only [dictGet, if_pos h2] at h
      obtain ⟨k', v'⟩ := p
      obtain rfl : k' = k := h2
      obtain rfl : v' = v := by simpa using h
      exact List.mem_cons_self _ _
    · simp only [dictGet, if_neg h2] at h
      exact List.mem_cons_of_mem _ (ih h)

/-! Helper lemmas about the stable sort used by the executive summary. -/

theorem insertEntry_perm (p : String × ℚ) (l : List (String × ℚ)) :
    (insertEntry p l).Perm (p :: l) := by
  induction l with
  | nil => simp [insertEntry]
  | cons q qs ih =>
    by_cases h : q.2 < p.2
    · simp only [insertEntry, if_pos h]
      exact (ih.cons q).trans (List.Perm.swap p q qs)
    · simp [insertEntry, if_neg h]

theorem sortByScore_perm (l : List (String × ℚ)) : (sortByScore l).Perm l := by
  induction l with
  | nil => simp [sortByScore]
  | cons p ps ih =>
    exact (insertEntry_perm p (sortByScore ps)).trans (ih.cons p)

theorem insertEntry_sorted {p : String × ℚ} {l : List (String × ℚ)}
    (h : l.Pairwise (fun a b => a.2 ≤ b.2)) :
    (insertEntry p l).Pairwise (fun a b => a.2 ≤ b.2) := by
  induction l with
  | nil => simp [insertEntry]
  | cons q qs ih =>
    rcases List.pairwise_cons.mp h with ⟨hq, hqs⟩
    by_cases h2 : q.2 < p.2
    · simp only [insertEntry, if_pos h2]
      refine List.pairwise_cons.mpr ⟨?_, ih hqs⟩
      intro x hx
      rcases List.mem_cons.mp ((insertEntry_perm p qs).mem_iff.mp hx) with h3 | h3
      · exact h3 ▸ le_of_lt h2
      · exact hq x h3
    · simp only [insertEntry, if_neg h2]
      refine List.pairwise_cons.mpr ⟨?_, h⟩
      intro x hx
      rcases List.mem_cons.mp hx with h3 | h3
      · exact h3 ▸ le_of_not_lt h2
      · exact le_trans (le_of_not_lt h2) (hq x h3)

theorem sortByScore_sorted (l : List (String × ℚ)) :
    (sortByScore l).Pairwise (fun a b => a.2 ≤ b.2) := by
  induction l with
  | nil => simp [sortByScore]
  | cons p ps ih => exact insertEntry_sorted ih

/-! Helper lemmas about the substring test. -/

theorem isPrefixOfL_self_append (n b : List Char) : isPrefixOfL n (n ++ b) = true := by
  induction n with
  | nil => rfl
  | cons c cs ih => simp [isPrefixOfL, ih]

theorem pyIn_append_self (a n b : List Char) : pyIn n (a ++ (n ++ b)) = true := by
  induction a with
  | nil =>
    cases hn : n with
    | nil => cases b <;> simp [pyIn, isPrefixOfL]
    | cons c cs =>
      subst hn
      simp only [List.nil_append, List.cons_append, pyIn]
      rw [show c :: cs.append b = (c :: cs) ++ b from rfl, isPrefixOfL_self_append]
      simp
  | cons c a' ih =>
    simp [pyIn, ih]

/-! Pointwise congruence for `filterMap`. -/

theorem filterMap_ext {α β : Type} {f g : α → Option β} {l : List α}
    (h : ∀ a ∈ l, f a = g a) : l.filterMap f = l.filterMap g := by
  induction l with
  | nil => rfl
  | cons x xs ih =>
    rw [List.filterMap_cons, List.filterMap_cons, h x (List.mem_cons_self x xs),
      ih fun a ha => h a (List.mem_cons_of_mem x ha)]

/-! State well-formedness and the `assess_control` inversion lemma. -/

/-- Well-formedness of the assessment store: the dict has no duplicate keys
(automatic for a Python dict) and each stored assessment's `ccf_id` equals
its key (it is stored via `self.assessments[ccf_id] = assessment` with that
very `ccf_id`). -/
def StoreWF (s : SecurityAuditor) : Prop :=
  (s.assessments.map Prod.fst).Nodup ∧ ∀ p ∈ s.assessments, p.2.ccf_id = p.1

theorem assess_control_ok {s : SecurityAuditor} {cid ev n : String}
    {st : ComplianceStatus} {g : List String} {a : ControlAssessment}
    {s' : SecurityAuditor}
    (h : assess_control s cid st ev g n = .ok (a, s')) :
    a.ccf_id = cid ∧ a.status = st ∧ a.score = (score_map st).getD 0 ∧
      s' = { s with assessments := dictSet cid a s.assessments } := by
  unfold assess_control at h
  cases hc : get_control_by_id s cid with
  | none => rw [hc] at h; exact absurd h (by simp)
  | some c =>
    rw [hc] at h
    simp only [Except.ok.injEq, Prod.mk.injEq] at h
    obtain ⟨ha, hs⟩ := h
    subst ha
    exact ⟨rfl, rfl, rfl, hs.symm⟩

theorem assess_control_heap {s : SecurityAuditor} {cid ev n : String}
    {st : ComplianceStatus} {g : List String} {a : ControlAssessment}
    {s' : SecurityAuditor}
    (h : assess_control s cid st ev g n = .ok (a, s')) :
    s'.heap = s.heap ∧ s'.findingsRef = s.findingsRef ∧
      s'.controls = s.controls ∧ s'.domains = s.domains := by
  obtain ⟨-, -, -, hs⟩ := assess_control_ok h
  subst hs
  exact ⟨rfl, rfl, rfl, rfl⟩

theorem storeWF_init (controls : List Control) (domains : List (String × List String)) :
    StoreWF (initAuditor controls domains) := by
  constructor <;> simp [initAuditor]

theorem storeWF_assess {s : SecurityAuditor} {cid ev n : String}
    {st : ComplianceStatus} {g : List String} {a : ControlAssessment}
    {s' : SecurityAuditor} (hwf : StoreWF s)
    (h : assess_control s cid st ev g n = .ok (a, s')) : StoreWF s' := by
  obtain ⟨hid, -, -, hs⟩ := assess_control_ok h
  subst hs
  refine ⟨keys_nodup_dictSet hwf.1, ?_⟩
  intro p hp
  rcases mem_dictSet hp with h2 | h2
  · subst h2; exact hid
  · exact hwf.2 p h2

theorem storeWF_runOp {s : SecurityAuditor} (hwf : StoreWF s) (op : AuditOp) :
    StoreWF (runOp s op) := by
  cases op with
  | assess cid st ev g n =>
    simp only [runOp]
    cases h : assess_control s cid st ev g n with
    | ok out =>
      obtain ⟨a, s'⟩ := out
      exact storeWF_assess hwf h
    | error e => exact hwf
  | finding f => exact hwf

theorem storeWF_runOps {s : SecurityAuditor} (hwf : StoreWF s) (ops : List AuditOp) :
    StoreWF (runOps s ops) := by
  induction ops generalizing s with
  | nil => exact hwf
  | cons op ops ih => exact ih (storeWF_runOp hwf op)

/-! Further list helpers. -/

theorem filter_ext {α : Type} {p q : α → Bool} {l : List α}
    (h : ∀ a ∈ l, p a = q a) : l.filter p = l.filter q := by
  induction l with
  | nil => rfl
  | cons x xs ih =>
    rw [List.filter_cons, List.filter_cons, h x (List.mem_cons_self x xs),
      ih fun a ha => h a (List.mem_cons_of_mem x ha)]

theorem map_snd_filter {α β : Type} (q : β → Bool) (l : List (α × β)) :
    ((l.filter (fun p => q p.2)).map Prod.snd) = (l.map Prod.snd).filter q := by
  induction l with
  | nil => rfl
  | cons x xs ih =>
    by_cases h : q x.2
    · simp [List.filter_cons, h, ih]
    · simp [List.filter_cons, h, ih]

theorem dictGet_filter_val {α : Type} {q : α → Bool} {k : String}
    {l : List (String × α)} (hnd : (l.map Prod.fst).Nodup) :
    dictGet k (l.filter (fun p => q p.2)) =
      (dictGet k l).bind (fun v => if q v then some v else none) := by
  induction l with
  | nil => rfl
  | cons p ps ih =>
    simp only [List.map_cons, List.nodup_cons] at hnd
    by_cases h : p.1 = k
    · by_cases h2 : q p.2
      · simp [List.filter_cons, h2, dictGet, h]
      · have h3 : k ∉ (ps.filter (fun p => q p.2)).map Prod.fst := by
          intro hk
          exact hnd.1 (h ▸ ((List.filter_sublist ps).map Prod.fst).subset hk)
        simp [List.filter_cons, h2, dictGet, h, dictGet_eq_none h3]
    · by_cases h2 : q p.2
      · simp [List.filter_cons, h2, dictGet, h, ih hnd.2]
      · simp [List.filter_cons, h2, dictGet, h, ih hnd.2]

theorem getD_set_self {α : Type} {l : List α} {i : Nat} (x d : α)
    (h : i < l.length) : (l.set i x).getD i d = x := by
  induction l generalizing i with
  | nil => simp at h
  | cons y ys ih =>
    cases i with
    | zero => rfl
    | succ j =>
      simp only [List.length_cons, Nat.succ_lt_succ_iff] at h
      show (y :: ys.set j x).getD (j + 1) d = x
      rw [List.getD_cons_succ]
      exact ih h

/-! Score invariant maintained by every operation (claim C10). -/

/-- Every stored assessment carries one of the three table scores, and a
`NOT_APPLICABLE` assessment is stored with score `0`. -/
def ScoreInv (s : SecurityAuditor) : Prop :=
  ∀ p ∈ s.assessments,
    (p.2.score = 0 ∨ p.2.score = 50 ∨ p.2.score = 100) ∧
      (p.2.status = ComplianceStatus.NOT_APPLICABLE → p.2.score = 0)

theorem scoreInv_runOp {s : SecurityAuditor} (hinv : ScoreInv s) (op : AuditOp) :
    ScoreInv (runOp s op) := by
  cases op with
  | assess cid st ev g n =>
    simp only [runOp]
    cases h : assess_control s cid st ev g n with
    | ok out =>
      obtain ⟨a, s'⟩ := out
      obtain ⟨-, hst, hsc, hs⟩ := assess_control_ok h
      subst hs
      intro p hp
      rcases mem_dictSet hp with h2 | h2
      · subst h2
        refine ⟨?_, fun hna => ?_⟩
        · show a.score = 0 ∨ a.score = 50 ∨ a.score = 100
          rw [hsc]; cases st <;> simp [score_map]
        · show a.score = 0
          have hna2 : a.status = ComplianceStatus.NOT_APPLICABLE := hna
          rw [hsc, hst.symm.trans hna2]
          simp [score_map]
      · exact hinv p h2
    | error e => exact hinv
  | finding f => exact hinv

theorem scoreInv_runOps {s : SecurityAuditor} (hinv : ScoreInv s)
    (ops : List AuditOp) : ScoreInv (runOps s ops) := by
  induction ops generalizing s with
  | nil => exact hinv
  | cons op ops ih => exact ih (scoreInv_runOp hinv op)

theorem scoreInv_init (controls : List Control)
    (domains : List (String × List String)) :
    ScoreInv (initAuditor controls domains) := by
  intro p hp
  simp [initAuditor] at hp

/-! Concrete fixtures used by the claims and their witnesses. -/

/-- Catalog for the §4.1-asymmetry scenario: domain `A` with one control,
domain `B` with three. -/
def ctlAB : List Control :=
  [⟨"A-01", "A", "a1"⟩, ⟨"B-01", "B", "b1"⟩, ⟨"B-02", "B", "b2"⟩, ⟨"B-03", "B", "b3"⟩]

/-- Domain index matching `ctlAB`. -/
def domAB : List (String × List String) :=
  [("A", ["A-01"]), ("B", ["B-01", "B-02", "B-03"])]

/-- Assess the single `A` control Compliant and the three `B` controls
NonCompliant. -/
def opsAB : List AuditOp :=
  [.assess "A-01" .COMPLIANT "" [] "", .assess "B-01" .NON_COMPLIANT "" [] "",
   .assess "B-02" .NON_COMPLIANT "" [] "", .assess "B-03" .NON_COMPLIANT "" [] ""]

/-- The engine state of the asymmetry scenario. -/
def sAB : SecurityAuditor := runOps (initAuditor ctlAB domAB) opsAB

/-- Two-control, one-domain catalog used by several witnesses. -/
def ctlD : List Control := [⟨"c1", "D", "n1"⟩, ⟨"c2", "D", "n2"⟩]

/-- Domain index matching `ctlD`. -/
def domD : List (String × List String) := [("D", ["c1", "c2"])]

/-- Freshly initialised engine over the `ctlD` catalog. -/
def s0D : SecurityAuditor := initAuditor ctlD domD

/-- Operations: `c1` Compliant, `c2` NonCompliant. -/
def opsNC : List AuditOp :=
  [.assess "c1" .COMPLIANT "" [] "", .assess "c2" .NON_COMPLIANT "" [] ""]

/-- Operations: `c1` Compliant, `c2` NotApplicable. -/
def opsNA : List AuditOp :=
  [.assess "c1" .COMPLIANT "" [] "", .assess "c2" .NOT_APPLICABLE "" [] ""]

/-- State after `opsNC`. -/
def sNC : SecurityAuditor := runOps s0D opsNC

/-- State after `opsNA`. -/
def sNA : SecurityAuditor := runOps s0D opsNA

/-! Claim theorems. -/

/-- Claim C2: `overall_score()` is the micro-average of score over every
non-NotApplicable assessment across all domains, not the mean of the
per-domain scores: in the state where domain `A` has one assessed control
scoring 100 and domain `B` has three assessed controls scoring 0, the two
per-domain scores are 100 and 0, the mean of `domain_scores.values()` is 50,
while `overall_score()` is 25. -/
theorem claim_C2_micro_average :
    calculate_domain_score sAB "A" = 100
  ∧ calculate_domain_score sAB "B" = 0
  ∧ (((generate_report sAB).domain_scores.map Prod.snd).sum /
       ((generate_report sAB).domain_scores.length : ℚ)) = 50
  ∧ calculate_overall_score sAB = 25
  ∧ (25 : ℚ) ≠ 50 := by
  have hA : calculate_domain_score sAB "A" = 100 := by
    have h : assessedForDomain sAB "A" =
        [⟨"A-01", "A", "a1", .COMPLIANT, "", [], "", 100⟩] := by decide
    simp only [calculate_domain_score, h]
    norm_num
  have hB : calculate_domain_score sAB "B" = 0 := by
    have h : assessedForDomain sAB "B" =
        [⟨"B-01", "B", "b1", .NON_COMPLIANT, "", [], "", 0⟩,
         ⟨"B-02", "B", "b2", .NON_COMPLIANT, "", [], "", 0⟩,
         ⟨"B-03", "B", "b3", .NON_COMPLIANT, "", [], "", 0⟩] := by decide
    simp only [calculate_domain_score, h]
    norm_num
  refine ⟨hA, hB, ?_, ?_, by norm_num⟩
  · have hdom : sAB.domains = domAB := by decide
    simp only [generate_report, hdom, domAB, List.map_cons, List.map_nil, hA, hB]
    norm_num
  · have h : (sAB.assessments.map Prod.snd).filter
        (fun a => decide (a.status ≠ ComplianceStatus.NOT_APPLICABLE)) =
      [⟨"A-01", "A", "a1", .COMPLIANT, "", [], "", 100⟩,
       ⟨"B-01", "B", "b1", .NON_COMPLIANT, "", [], "", 0⟩,
       ⟨"B-02", "B", "b2", .NON_COMPLIANT, "", [], "", 0⟩,
       ⟨"B-03", "B", "b3", .NON_COMPLIANT, "", [], "", 0⟩] := by decide
    simp only [calculate_overall_score, h]
    norm_num
    simp

/-- Claim C4 counterexample: with candidates `["alpha", "beta", "gamma"]`
and response `"beta"` (substring match at index 1 of 3), the source returns
NonCompliant with score 50 — not Partial as the claim states — because the
position score 50 is not greater than the 60 threshold. -/
theorem claim_C4_counterexample :
    interpret_response "q" "beta" ["alpha", "beta", "gamma"] =
      (ComplianceStatus.NON_COMPLIANT, 50)
  ∧ (ComplianceStatus.NON_COMPLIANT, (50 : ℚ)) ≠ (ComplianceStatus.PARTIAL_, 50) := by
  constructor
  · have h : findOptionIdx (normalizeResponse "beta") ["alpha", "beta", "gamma"] =
        some 1 := by decide
    simp only [interpret_response, h]
    norm_num
  · simp

/-- Claim C4 (amended): given three candidates and a response whose substring
scan resolves index 1, `interpret_response` returns status NonCompliant
(not Partial, since the position score 50 fails the `score > 60` test) with
score 50. -/
theorem claim_C4_middle_of_three (question response : String)
    (options : List String) (hlen : options.length = 3)
    (hidx : findOptionIdx (normalizeResponse response) options = some 1) :
    interpret_response question response options =
      (ComplianceStatus.NON_COMPLIANT, 50) := by
  simp only [interpret_response, hidx, hlen]
  norm_num

/-- Witness for C4: the amended theorem applied to the concrete
counterexample input. -/
theorem claim_C4_witness :
    (["alpha", "beta", "gamma"] : List String).length = 3
  ∧ findOptionIdx (normalizeResponse "beta") ["alpha", "beta", "gamma"] = some 1
  ∧ interpret_response "q" "beta" ["alpha", "beta", "gamma"] =
      (ComplianceStatus.NON_COMPLIANT, 50) :=
  ⟨by decide, by decide,
    claim_C4_middle_of_three "q" "beta" ["alpha", "beta", "gamma"] (by decide) (by decide)⟩

/-- Claim C6: assessing a control id that is absent from the catalog fails
with the unknown-control error (`ValueError("Control ... not found")`) and
leaves the assessment store unchanged; for every catalog-present id the call
succeeds. -/
theorem claim_C6_unknown_control (s : SecurityAuditor) (cid : String)
    (st : ComplianceStatus) (ev : String) (g : List String) (n : String) :
    (get_control_by_id s cid = none →
        assess_control s cid st ev g n = .error ("Control " ++ cid ++ " not found")
      ∧ runOp s (.assess cid st ev g n) = s)
  ∧ ∀ c, get_control_by_id s cid = some c →
      ∃ a s', assess_control s cid st ev g n = .ok (a, s') := by
  constructor
  · intro h
    have he : assess_control s cid st ev g n =
        .error ("Control " ++ cid ++ " not found") := by
      simp [assess_control, h]
    refine ⟨he, ?_⟩
    simp [runOp, he]
  · intro c h
    unfold assess_control
    rw [h]
    exact ⟨_, _, rfl⟩

/-- Witness for C6: the unknown id `"zz"` fails and changes nothing on the
concrete state `s0D`; the catalog-present id `"c1"` succeeds. -/
theorem claim_C6_witness :
    (assess_control s0D "zz" .COMPLIANT "" [] "" =
        .error ("Control " ++ "zz" ++ " not found")
      ∧ runOp s0D (.assess "zz" .COMPLIANT "" [] "") = s0D)
  ∧ ∃ a s', assess_control s0D "c1" .COMPLIANT "" [] "" = .ok (a, s') :=
  ⟨(claim_C6_unknown_control s0D "zz" .COMPLIANT "" [] "").1 (by decide),
   (claim_C6_unknown_control s0D "c1" .COMPLIANT "" [] "").2 ⟨"c1", "D", "n1"⟩ (by decide)⟩

/-- Claim C7: an input on which neither the substring scan nor the keyword
fallback resolves an index (candidates `["alpha", "gamma"]`, response
`"zzz"`) makes `interpret_response` apply the position formula to the
unresolved index `-1`, producing score `100 - (-1/(2-1))*100 = 200`,
strictly greater than 100 (and classified Partial since `200 > 60`). -/
theorem claim_C7_out_of_range_score :
    findOptionIdx (normalizeResponse "zzz") ["alpha", "gamma"] = none
  ∧ fallbackIdx (normalizeResponse "zzz") 2 = -1
  ∧ interpret_response "q" "zzz" ["alpha", "gamma"] = (ComplianceStatus.PARTIAL_, 200)
  ∧ (200 : ℚ) > 100 := by
  refine ⟨by decide, by decide, ?_, by norm_num⟩
  have h : findOptionIdx (normalizeResponse "zzz") ["alpha", "gamma"] = none := by decide
  have h2 : fallbackIdx (normalizeResponse "zzz")
      (["alpha", "gamma"] : List String).length = -1 := by decide
  simp only [interpret_response, h, h2]
  norm_num

/-- Claim C9: the executive summary's weakest-domains list is the three
lowest-scoring entries of `domain_scores` (the sorted list is an ascending
permutation of the input, so its first three entries are the three lowest),
sorted ascending, filtered to scores strictly below 60, hence 0 to 3
entries; a domain scoring exactly 60 is excluded and one scoring 59.9 is
included. -/
theorem claim_C9_weakest_domains :
    (∀ ds : List (String × ℚ),
        weakest_domains ds =
          (((sortByScore ds).take 3).filter (fun d => decide (d.2 < 60))).map Prod.fst
      ∧ (weakest_domains ds).length ≤ 3
      ∧ (∀ p ∈ ((sortByScore ds).take 3).filter (fun d => decide (d.2 < 60)), p.2 < 60)
      ∧ (sortByScore ds).Pairwise (fun a b => a.2 ≤ b.2)
      ∧ (sortByScore ds).Perm ds)
  ∧ weakest_domains [("A", 60), ("B", (599 : ℚ)/10)] = ["B"] := by
  constructor
  · intro ds
    refine ⟨rfl, ?_, ?_, sortByScore_sorted ds, sortByScore_perm ds⟩
    · simp only [weakest_domains, List.length_map]
      exact le_trans (List.length_filter_le _ _)
        (le_trans (List.length_take_le 3 _) le_rfl)
    · intro p hp
      have := (List.mem_filter.mp hp).2
      exact of_decide_eq_true this
  · norm_num [weakest_domains, sortByScore, insertEntry, List.take, List.filter]

/-- Witness for C9: the boundary instance — in
`[("A", 60), ("B", 59.9)]` the entry `("B", 59.9)` survives the strict
filter and its score is below 60. -/
theorem claim_C9_witness :
    (("B", (599 : ℚ)/10) ∈
        ((sortByScore [("A", 60), ("B", (599 : ℚ)/10)]).take 3).filter
          (fun d => decide (d.2 < 60)))
  ∧ (("B", (599 : ℚ)/10) : String × ℚ).2 < 60 := by
  have hm : ((sortByScore [("A", 60), ("B", (599 : ℚ)/10)]).take 3).filter
      (fun d => decide (d.2 < 60)) = [("B", (599 : ℚ)/10)] := by
    norm_num [sortByScore, insertEntry, List.take, List.filter]
  refine ⟨by rw [hm]; exact List.mem_cons_self _ _, ?_⟩
  exact (claim_C9_weakest_domains.1 [("A", 60), ("B", (599 : ℚ)/10)]).2.2.1
    ("B", (599 : ℚ)/10) (by rw [hm]; exact List.mem_cons_self _ _)

/-- Claim C10: in every state reachable from a fresh engine, every stored
assessment's score is one of 0, 50, 100, and a NotApplicable assessment is
stored with score 0 (not with the score absent).  Concretely, `c2` assessed
NonCompliant and `c2` assessed NotApplicable are both stored with score 0,
yet the overall score is 50 in the first state and 100 in the second:
exclusion from the average is decided by the stored status, not by the
stored score value. -/
theorem claim_C10_score_invariant :
    (∀ (controls : List Control) (domains : List (String × List String))
        (ops : List AuditOp) (p : String × ControlAssessment),
        p ∈ (runOps (initAuditor controls domains) ops).assessments →
          (p.2.score = 0 ∨ p.2.score = 50 ∨ p.2.score = 100)
        ∧ (p.2.status = ComplianceStatus.NOT_APPLICABLE → p.2.score = 0))
  ∧ dictGet "c2" sNC.assessments =
      some ⟨"c2", "D", "n2", ComplianceStatus.NON_COMPLIANT, "", [], "", 0⟩
  ∧ dictGet "c2" sNA.assessments =
      some ⟨"c2", "D", "n2", ComplianceStatus.NOT_APPLICABLE, "", [], "", 0⟩
  ∧ calculate_overall_score sNC = 50
  ∧ calculate_overall_score sNA = 100 := by
  refine ⟨?_, by decide, by decide, ?_, ?_⟩
  · intro controls domains ops p hp
    exact scoreInv_runOps (scoreInv_init controls domains) ops p hp
  · have h : (sNC.assessments.map Prod.snd).filter
        (fun a => decide (a.status ≠ ComplianceStatus.NOT_APPLICABLE)) =
      [⟨"c1", "D", "n1", .COMPLIANT, "", [], "", 100⟩,
       ⟨"c2", "D", "n2", .NON_COMPLIANT, "", [], "", 0⟩] := by decide
    simp only [calculate_overall_score, h]
    norm_num
    simp
  · have h : (sNA.assessments.map Prod.snd).filter
        (fun a => decide (a.status ≠ ComplianceStatus.NOT_APPLICABLE)) =
      [⟨"c1", "D", "n1", .COMPLIANT, "", [], "", 100⟩] := by decide
    simp only [calculate_overall_score, h]
    norm_num

/-- Witness for C10: the reachable-state invariant applied to the concrete
NotApplicable assessment stored in `sNA`. -/
theorem claim_C10_witness :
    (("c2", (⟨"c2", "D", "n2", ComplianceStatus.NOT_APPLICABLE, "", [], "", 0⟩ :
        ControlAssessment)) ∈ (runOps (initAuditor ctlD domD) opsNA).assessments)
  ∧ (((⟨"c2", "D", "n2", ComplianceStatus.NOT_APPLICABLE, "", [], "", 0⟩ :
        ControlAssessment).score = 0 ∨
      (⟨"c2", "D", "n2", ComplianceStatus.NOT_APPLICABLE, "", [], "", 0⟩ :
        ControlAssessment).score = 50 ∨
      (⟨"c2", "D", "n2", ComplianceStatus.NOT_APPLICABLE, "", [], "", 0⟩ :
        ControlAssessment).score = 100)
    ∧ ((⟨"c2", "D", "n2", ComplianceStatus.NOT_APPLICABLE, "", [], "", 0⟩ :
        ControlAssessment).status = ComplianceStatus.NOT_APPLICABLE →
       (⟨"c2", "D", "n2", ComplianceStatus.NOT_APPLICABLE, "", [], "", 0⟩ :
        ControlAssessment).score = 0)) :=
  ⟨by decide,
   claim_C10_score_invariant.1 ctlD domD opsNA
     ("c2", ⟨"c2", "D", "n2", ComplianceStatus.NOT_APPLICABLE, "", [], "", 0⟩)
     (by decide)⟩

/-- A concrete finding used by the C5 scenario. -/
def fF : Finding :=
  ⟨"F-1", "Harden logging", "d", ["c1"], .HIGH, "Enable audit logs", "ri", "low"⟩

/-- The assessment produced by assessing `c1` Compliant on `s0D`. -/
def aW : ControlAssessment := ⟨"c1", "D", "n1", .COMPLIANT, "", [], "", 100⟩

/-- The engine state after assessing `c1` Compliant on `s0D`. -/
def s1W : SecurityAuditor := { s0D with assessments := dictSet "c1" aW s0D.assessments }

/-- Claim C5 counterexample: the claim that a generated report's finding
list is unchanged by a later registry mutation is false — the report stores
a reference to the registry's list object (`findings=self.findings`), so
after `add_finding` the already-produced report's finding list has grown
from `[]` to `[fF]`. -/
theorem claim_C5_counterexample :
    reportFindings (generate_report s0D) (add_finding s0D fF) ≠
      reportFindings (generate_report s0D) s0D := by decide

/-- Claim C5 (amended): after `generate_report`, re-recording an assessment
leaves the report's value fields and its readable finding list unchanged
(the store mutation touches neither the heap nor the registry reference),
and a registry mutation leaves the assessment store unchanged; but the
report's finding list aliases the live registry, so `add_finding` extends
the already-produced report's finding list by the new finding. -/
theorem claim_C5_report_aliasing (s : SecurityAuditor) (f : Finding)
    (cid : String) (st : ComplianceStatus) (ev : String) (g : List String)
    (n : String) (a : ControlAssessment) (s' : SecurityAuditor)
    (href : s.findingsRef < s.heap.length) :
    (add_finding s f).assessments = s.assessments
  ∧ reportFindings (generate_report s) (add_finding s f) =
      reportFindings (generate_report s) s ++ [f]
  ∧ (assess_control s cid st ev g n = .ok (a, s') →
      reportFindings (generate_report s) s' = reportFindings (generate_report s) s) := by
  refine ⟨rfl, ?_, ?_⟩
  · show (s.heap.set s.findingsRef (findingsOf s ++ [f])).getD s.findingsRef [] =
      s.heap.getD s.findingsRef [] ++ [f]
    rw [getD_set_self _ _ href]
    rfl
  · intro h
    obtain ⟨hheap, href, -, -⟩ := assess_control_heap h
    show s'.heap.getD s.findingsRef [] = s.heap.getD s.findingsRef []
    rw [hheap]

/-- Witness for C5: the amended theorem at the concrete state `s0D`, finding
`fF` and the successful re-recording of `c1`. -/
theorem claim_C5_witness :
    s0D.findingsRef < s0D.heap.length
  ∧ assess_control s0D "c1" .COMPLIANT "" [] "" = .ok (aW, s1W)
  ∧ reportFindings (generate_report s0D) (add_finding s0D fF) =
      reportFindings (generate_report s0D) s0D ++ [fF]
  ∧ reportFindings (generate_report s0D) s1W = reportFindings (generate_report s0D) s0D :=
  ⟨by decide, by rfl,
   (claim_C5_report_aliasing s0D fF "c1" .COMPLIANT "" [] "" aW s1W (by decide)).2.1,
   (claim_C5_report_aliasing s0D fF "c1" .COMPLIANT "" [] "" aW s1W (by decide)).2.2
     (by rfl)⟩

/-- Claim C3: the store holds at most one assessment per control id — after
two successive `assess_control` calls on the same id, the store contains
exactly one entry for it, namely the second assessment; the report generated
afterwards lists the second assessment, and the replaced first assessment
appears in that report only if it is literally equal to the second. -/
theorem claim_C3_replacement (s : SecurityAuditor) (cid : String)
    (st1 st2 : ComplianceStatus) (ev1 ev2 n1 n2 : String) (g1 g2 : List String)
    (a1 a2 : ControlAssessment) (s1 s2 : SecurityAuditor)
    (hwf : StoreWF s)
    (h1 : assess_control s cid st1 ev1 g1 n1 = .ok (a1, s1))
    (h2 : assess_control s1 cid st2 ev2 g2 n2 = .ok (a2, s2)) :
    s2.assessments.filter (fun p => decide (p.1 = cid)) = [(cid, a2)]
  ∧ dictGet cid s2.assessments = some a2
  ∧ a2 ∈ (generate_report s2).assessments
  ∧ (a1 ∈ (generate_report s2).assessments → a1 = a2) := by
  have hwf1 : StoreWF s1 := storeWF_assess hwf h1
  have hwf2 : StoreWF s2 := storeWF_assess hwf1 h2
  obtain ⟨hid1, -, -, hs1⟩ := assess_control_ok h1
  obtain ⟨hid2, -, -, hs2⟩ := assess_control_ok h2
  have hass2 : s2.assessments = dictSet cid a2 s1.assessments := by rw [hs2]
  have hfil : s2.assessments.filter (fun p => decide (p.1 = cid)) = [(cid, a2)] := by
    rw [hass2]
    exact filter_key_dictSet a2 hwf1.1
  have hget : dictGet cid s2.assessments = some a2 := by
    rw [hass2]
    exact dictGet_dictSet_self cid a2 s1.assessments
  refine ⟨hfil, hget, ?_, ?_⟩
  · exact List.mem_map.mpr ⟨(cid, a2), dictGet_mem hget, rfl⟩
  · intro hmem
    obtain ⟨p, hp, hpa⟩ := List.mem_map.mp hmem
    have hkey : p.1 = cid := by
      rw [← hwf2.2 p hp, hpa, hid1]
    have : p ∈ s2.assessments.filter (fun p => decide (p.1 = cid)) :=
      List.mem_filter.mpr ⟨hp, decide_eq_true hkey⟩
    rw [hfil] at this
    have : p = (cid, a2) := by simpa using this
    rw [← hpa, this]

/-- The assessment produced by assessing `c1` NonCompliant on `s0D`. -/
def a1W : ControlAssessment := ⟨"c1", "D", "n1", .NON_COMPLIANT, "", [], "", 0⟩

/-- State after assessing `c1` NonCompliant on `s0D`. -/
def s1X : SecurityAuditor := { s0D with assessments := dictSet "c1" a1W s0D.assessments }

/-- State after re-assessing `c1` Compliant on `s1X`. -/
def s2X : SecurityAuditor := { s1X with assessments := dictSet "c1" aW s1X.assessments }

/-- Witness for C3: `c1` assessed NonCompliant then Compliant on `s0D`; the
second record is the only one stored and the only one reported. -/
theorem claim_C3_witness :
    s2X.assessments.filter (fun p => decide (p.1 = "c1")) = [("c1", aW)]
  ∧ dictGet "c1" s2X.assessments = some aW
  ∧ aW ∈ (generate_report s2X).assessments
  ∧ (a1W ∈ (generate_report s2X).assessments → a1W = aW) :=
  claim_C3_replacement s0D "c1" .NON_COMPLIANT .COMPLIANT "" "" "" "" [] []
    a1W aW s1X s2X ⟨by decide, by decide⟩ (by rfl) (by rfl)

/-- The assessment store with the `NOT_APPLICABLE` entries removed; used to
state that NotApplicable assessments contribute nothing to either score. -/
def removeNotApplicable (s : SecurityAuditor) : SecurityAuditor :=
  { s with assessments := s.assessments.filter (fun p => decide (p.2.status ≠ ComplianceStatus.NOT_APPLICABLE)) }

/-- Claim C1: for every catalog-present control id, recording an assessment
with status Compliant, Partial, NonCompliant or NotAssessed stores an
assessment scoring exactly 100, 50, 0, 0 respectively; and the
NotApplicable-status entries of the store are excluded from the sets
averaged by both `calculate_domain_score` and `calculate_overall_score`
(removing them changes neither score). -/
theorem claim_C1_score_table :
    (∀ (s : SecurityAuditor) (cid ev n : String) (g : List String),
        (get_control_by_id s cid).isSome = true →
          (∃ a s', assess_control s cid ComplianceStatus.COMPLIANT ev g n = .ok (a, s')
            ∧ a.status = ComplianceStatus.COMPLIANT ∧ a.score = 100
            ∧ dictGet cid s'.assessments = some a)
        ∧ (∃ a s', assess_control s cid ComplianceStatus.PARTIAL_ ev g n = .ok (a, s')
            ∧ a.status = ComplianceStatus.PARTIAL_ ∧ a.score = 50
            ∧ dictGet cid s'.assessments = some a)
        ∧ (∃ a s', assess_control s cid ComplianceStatus.NON_COMPLIANT ev g n = .ok (a, s')
            ∧ a.status = ComplianceStatus.NON_COMPLIANT ∧ a.score = 0
            ∧ dictGet cid s'.assessments = some a)
        ∧ (∃ a s', assess_control s cid ComplianceStatus.NOT_ASSESSED ev g n = .ok (a, s')
            ∧ a.status = ComplianceStatus.NOT_ASSESSED ∧ a.score = 0
            ∧ dictGet cid s'.assessments = some a))
  ∧ (∀ s : SecurityAuditor, (s.assessments.map Prod.fst).Nodup →
        calculate_overall_score (removeNotApplicable s) = calculate_overall_score s
      ∧ ∀ d, calculate_domain_score (removeNotApplicable s) d =
          calculate_domain_score s d) := by
  constructor
  · intro s cid ev n g h
    obtain ⟨c, hc⟩ := Option.isSome_iff_exists.mp h
    have mk : ∀ st : ComplianceStatus,
        ∃ a s', assess_control s cid st ev g n = .ok (a, s')
          ∧ a.status = st ∧ a.score = (score_map st).getD 0
          ∧ dictGet cid s'.assessments = some a := by
      intro st
      have hok : assess_control s cid st ev g n = .ok (⟨cid, c.domain, c.name, st, ev, g, n, (score_map st).getD 0⟩, { s with assessments := dictSet cid ⟨cid, c.domain, c.name, st, ev, g, n, (score_map st).getD 0⟩ s.assessments }) := by
        unfold assess_control
        rw [hc]
      exact ⟨_, _, hok, rfl, rfl, dictGet_dictSet_self cid _ s.assessments⟩
    refine ⟨?_, ?_, ?_, ?_⟩
    · obtain ⟨a, s', h1, h2, h3, h4⟩ := mk ComplianceStatus.COMPLIANT
      exact ⟨a, s', h1, h2, h3.trans (by rfl), h4⟩
    · obtain ⟨a, s', h1, h2, h3, h4⟩ := mk ComplianceStatus.PARTIAL_
      exact ⟨a, s', h1, h2, h3.trans (by rfl), h4⟩
    · obtain ⟨a, s', h1, h2, h3, h4⟩ := mk ComplianceStatus.NON_COMPLIANT
      exact ⟨a, s', h1, h2, h3.trans (by rfl), h4⟩
    · obtain ⟨a, s', h1, h2, h3, h4⟩ := mk ComplianceStatus.NOT_ASSESSED
      exact ⟨a, s', h1, h2, h3.trans (by rfl), h4⟩
  · intro s hnd
    have he : ((removeNotApplicable s).assessments.map Prod.snd).filter
          (fun a => decide (a.status ≠ ComplianceStatus.NOT_APPLICABLE)) =
        (s.assessments.map Prod.snd).filter
          (fun a => decide (a.status ≠ ComplianceStatus.NOT_APPLICABLE)) := by
      simp only [removeNotApplicable]
      rw [map_snd_filter (fun a => decide (a.status ≠ ComplianceStatus.NOT_APPLICABLE))
        s.assessments, List.filter_filter]
      exact filter_ext (fun a _ => Bool.and_self _)
    constructor
    · simp only [calculate_overall_score, he]
    · intro d
      have hd : assessedForDomain (removeNotApplicable s) d = assessedForDomain s d := by
        simp only [assessedForDomain, removeNotApplicable]
        apply filterMap_ext
        intro cid _
        rw [@dictGet_filter_val ControlAssessment
          (fun v => decide (v.status ≠ ComplianceStatus.NOT_APPLICABLE)) cid
          s.assessments hnd]
        cases hg : dictGet cid s.assessments with
        | none => rfl
        | some a =>
          by_cases hna : a.status = ComplianceStatus.NOT_APPLICABLE
          · simp [hna]
          · simp [hna]
      simp only [calculate_domain_score, hd]

/-- Witness for C1: the score-table part at the concrete state `s0D` and
catalog-present id `c1`, and the exclusion part at the concrete state
`sNA` whose store holds a NotApplicable assessment. -/
theorem claim_C1_witness :
    (get_control_by_id s0D "c1").isSome = true
  ∧ (∃ a s', assess_control s0D "c1" ComplianceStatus.COMPLIANT "" [] "" = .ok (a, s')
      ∧ a.status = ComplianceStatus.COMPLIANT ∧ a.score = 100
      ∧ dictGet "c1" s'.assessments = some a)
  ∧ (sNA.assessments.map Prod.fst).Nodup
  ∧ calculate_overall_score (removeNotApplicable sNA) = calculate_overall_score sNA :=
  ⟨by decide, ((claim_C1_score_table.1 s0D "c1" "" "" []) (by decide)).1, by decide,
   ((claim_C1_score_table.2 sNA) (by decide)).1⟩

/-- The CRITICAL/HIGH/MEDIUM band rendering depends on exactly the titles
and recommendation texts of its findings. -/
theorem renderNumberedCHM_ext : ∀ (fs gs : List Finding) (i : Nat),
    fs.map (fun f => (f.title, f.recommendation)) =
      gs.map (fun f => (f.title, f.recommendation)) →
    renderNumberedCHM i fs = renderNumberedCHM i gs := by
  intro fs
  induction fs with
  | nil =>
    intro gs i h
    cases gs with
    | nil => rfl
    | cons g gs2 => simp at h
  | cons f fs ih =>
    intro gs i h
    cases gs with
    | nil => simp at h
    | cons g gs2 =>
      simp only [List.map_cons, List.cons.injEq, Prod.mk.injEq] at h
      obtain ⟨⟨ht, hr⟩, htail⟩ := h
      simp only [renderNumberedCHM, ht, hr]
      rw [ih gs2 (i + 1) htail]

/-- The LOW band rendering depends on exactly the titles of its findings —
recommendation text is suppressed. -/
theorem renderNumberedLow_ext : ∀ (fs gs : List Finding) (i : Nat),
    fs.map Finding.title = gs.map Finding.title →
    renderNumberedLow i fs = renderNumberedLow i gs := by
  intro fs
  induction fs with
  | nil =>
    intro gs i h
    cases gs with
    | nil => rfl
    | cons g gs2 => simp at h
  | cons f fs ih =>
    intro gs i h
    cases gs with
    | nil => simp at h
    | cons g gs2 =>
      simp only [List.map_cons, List.cons.injEq] at h
      obtain ⟨ht, htail⟩ := h
      simp only [renderNumberedLow, ht]
      rw [ih gs2 (i + 1) htail]

/-- A CRITICAL/HIGH/MEDIUM band entry contains its recommendation text. -/
theorem pyIn_renderCHM (i : Nat) (f : Finding) :
    pyIn f.recommendation.data (renderNumberedCHM i [f]).data = true := by
  have h : (renderNumberedCHM i [f]).data =
      (toString i ++ ". " ++ f.title ++ "\n" ++ "   - ").data ++
        (f.recommendation.data ++ ("\n\n" ++ renderNumberedCHM (i + 1) []).data) := by
    simp [renderNumberedCHM, String.data_append, List.append_assoc]
  rw [h]
  exact pyIn_append_self _ _ _

/-- INFO findings never influence the recommendations summary. -/
theorem recommendations_drop_info (fs : List Finding) :
    generate_recommendations_summary fs =
      generate_recommendations_summary
        (fs.filter (fun f => decide (f.priority ≠ Priority.INFO))) := by
  have hC : (fs.filter (fun f => decide (f.priority ≠ Priority.INFO))).filter
        (fun f => decide (f.priority = Priority.CRITICAL)) =
      fs.filter (fun f => decide (f.priority = Priority.CRITICAL)) := by
    rw [List.filter_filter]
    apply filter_ext
    intro f _
    cases hp : f.priority <;> simp [hp]
  have hH : (fs.filter (fun f => decide (f.priority ≠ Priority.INFO))).filter
        (fun f => decide (f.priority = Priority.HIGH)) =
      fs.filter (fun f => decide (f.priority = Priority.HIGH)) := by
    rw [List.filter_filter]
    apply filter_ext
    intro f _
    cases hp : f.priority <;> simp [hp]
  have hM : (fs.filter (fun f => decide (f.priority ≠ Priority.INFO))).filter
        (fun f => decide (f.priority = Priority.MEDIUM)) =
      fs.filter (fun f => decide (f.priority = Priority.MEDIUM)) := by
    rw [List.filter_filter]
    apply filter_ext
    intro f _
    cases hp : f.priority <;> simp [hp]
  have hL : (fs.filter (fun f => decide (f.priority ≠ Priority.INFO))).filter
        (fun f => decide (f.priority = Priority.LOW)) =
      fs.filter (fun f => decide (f.priority = Priority.LOW)) := by
    rw [List.filter_filter]
    apply filter_ext
    intro f _
    cases hp : f.priority <;> simp [hp]
  simp only [generate_recommendations_summary, hC, hH, hM, hL]

/-- Claim C8: the recommendations synthesis partitions findings into the
four bands Critical, High, Medium, Low (each band is the registry filtered
by that priority, hence a sublist preserving insertion order); removing the
INFO findings leaves the summary unchanged (INFO findings are never
rendered); the Critical/High/Medium entry rendering is a function of title
and recommendation and contains the recommendation text; the Low entry
rendering is a function of the title alone. -/
theorem claim_C8_recommendations :
    (∀ fs : List Finding,
        generate_recommendations_summary fs =
          generate_recommendations_summary
            (fs.filter (fun f => decide (f.priority ≠ Priority.INFO))))
  ∧ (∀ fs : List Finding,
        ((fs.filter (fun f => decide (f.priority = Priority.CRITICAL))).Sublist fs)
      ∧ ((fs.filter (fun f => decide (f.priority = Priority.HIGH))).Sublist fs)
      ∧ ((fs.filter (fun f => decide (f.priority = Priority.MEDIUM))).Sublist fs)
      ∧ ((fs.filter (fun f => decide (f.priority = Priority.LOW))).Sublist fs))
  ∧ (∀ (fs gs : List Finding) (i : Nat),
        fs.map (fun f => (f.title, f.recommendation)) =
          gs.map (fun f => (f.title, f.recommendation)) →
        renderNumberedCHM i fs = renderNumberedCHM i gs)
  ∧ (∀ (i : Nat) (f : Finding),
        pyIn f.recommendation.data (renderNumberedCHM i [f]).data = true)
  ∧ (∀ (fs gs : List Finding) (i : Nat),
        fs.map Finding.title = gs.map Finding.title →
        renderNumberedLow i fs = renderNumberedLow i gs) :=
  ⟨recommendations_drop_info,
   fun fs => ⟨List.filter_sublist fs, List.filter_sublist fs,
     List.filter_sublist fs, List.filter_sublist fs⟩,
   renderNumberedCHM_ext, pyIn_renderCHM, renderNumberedLow_ext⟩

/-- A HIGH-priority finding fixture for C8. -/
def fX : Finding := ⟨"F-X", "Tighten IAM", "d1", ["c1"], .HIGH, "Enable MFA", "ri1", "low"⟩

/-- A LOW-priority finding fixture for C8, sharing title and recommendation
with `fX` but nothing else. -/
def fY : Finding := ⟨"F-Y", "Tighten IAM", "d2", [], .LOW, "Enable MFA", "ri2", "high"⟩

/-- Witness for C8: the rendering-dependence parts of the claim applied to
the concrete findings `fX`, `fY`. -/
theorem claim_C8_witness :
    ([fX].map (fun f => (f.title, f.recommendation)) =
       [fY].map (fun f => (f.title, f.recommendation)))
  ∧ renderNumberedCHM 1 [fX] = renderNumberedCHM 1 [fY]
  ∧ [fX].map Finding.title = [fY].map Finding.title
  ∧ renderNumberedLow 1 [fX] = renderNumberedLow 1 [fY] :=
  ⟨by decide, claim_C8_recommendations.2.2.1 [fX] [fY] 1 (by decide),
   by decide, claim_C8_recommendations.2.2.2.2 [fX] [fY] 1 (by decide)⟩

end CCF
